import Mathlib

/-!
Verification development for the Godrick/Wright chat server: a shallow
embedding of the conversation store (`services/conversationService.js`),
the auth middleware (`middleware/auth.js`), the auth route handlers
(`routes/auth.js`), the conversation CRUD routes
(`routes/conversations.js`) and the streaming chat endpoint
(`server.js`, `app.post('/api/chat')`), together with theorems about the
persistence pipeline, event framing, and ownership scoping.
-/

namespace Godrick

/-! ## Data model (db/database.js schema) -/

/-- A row of the `conversations` table. -/
structure ConvRow where
  id : Nat
  user_id : Nat
  title : String
  created_at : Nat
  updated_at : Nat
deriving Repr, DecidableEq

/-- A row of the `messages` table. -/
structure MsgRow where
  id : Nat
  conversation_id : Nat
  role : String
  content : String
  created_at : Nat
deriving Repr, DecidableEq

/-- The SQLite database state visible to the conversation service, plus the
autoincrement counters and the value of `CURRENT_TIMESTAMP`. -/
structure Store where
  convs : List ConvRow
  msgs : List MsgRow
  nextConvId : Nat
  nextMsgId : Nat
  now : Nat
deriving Repr, DecidableEq

/-- Autoincrement/foreign-key invariants guaranteed by the SQLite schema:
row ids are below the next rowid, and every message references an already
allocated conversation id. -/
def Store.WF (s : Store) : Prop :=
  (∀ c ∈ s.convs, c.id < s.nextConvId) ∧
  (∀ m ∈ s.msgs, m.id < s.nextMsgId) ∧
  (∀ m ∈ s.msgs, m.conversation_id < s.nextConvId)

/-! ## Conversation service (services/conversationService.js) -/

/-- `getConversationById`: `SELECT * FROM conversations WHERE id = ? AND user_id = ?`. -/
def getConversationById (conversationId userId : Nat) (s : Store) : Option ConvRow :=
  s.convs.find? (fun c => c.id == conversationId && c.user_id == userId)

/-- `createConversation`: INSERT a row, then return
`getConversationById(lastInsertRowid, userId)`. -/
def createConversation (userId : Nat) (title : String) (s : Store) :
    Option ConvRow × Store :=
  let row : ConvRow :=
    { id := s.nextConvId, user_id := userId, title := title,
      created_at := s.now, updated_at := s.now }
  let s' := { s with convs := s.convs ++ [row], nextConvId := s.nextConvId + 1 }
  (getConversationById s.nextConvId userId s', s')

/-- `getConversationWithMessages`: ownership-scoped lookup, then the
conversation's messages in creation order (rows are kept in insertion
order, which realizes `ORDER BY created_at ASC` for autoincrement rows). -/
def getConversationWithMessages (conversationId userId : Nat) (s : Store) :
    Option (ConvRow × List MsgRow) :=
  match getConversationById conversationId userId s with
  | none => none
  | some conversation =>
      some (conversation, s.msgs.filter (fun m => m.conversation_id == conversationId))

/-- `updateConversationTitle`: `UPDATE conversations SET title = ?,
updated_at = CURRENT_TIMESTAMP WHERE id = ? AND user_id = ?`, then return
the ownership-scoped lookup. -/
def updateConversationTitle (conversationId userId : Nat) (title : String) (s : Store) :
    Option ConvRow × Store :=
  let convs' := s.convs.map (fun c =>
    if c.id == conversationId && c.user_id == userId then
      { c with title := title, updated_at := s.now }
    else c)
  let s' := { s with convs := convs' }
  (getConversationById conversationId userId s', s')

/-- `deleteConversation`: `DELETE FROM conversations WHERE id = ? AND
user_id = ?` (messages cascade via the foreign key); returns
`changes > 0`. -/
def deleteConversation (conversationId userId : Nat) (s : Store) : Bool × Store :=
  if s.convs.any (fun c => c.id == conversationId && c.user_id == userId) then
    (true,
      { s with
        convs := s.convs.filter (fun c => !(c.id == conversationId && c.user_id == userId)),
        msgs := s.msgs.filter (fun m => !(m.conversation_id == conversationId)) })
  else
    (false, s)

/-- `addMessage`: verify ownership via `getConversationById` (returning
`null` on a miss), INSERT the message row, and bump the conversation's
`updated_at`. -/
def addMessage (conversationId userId : Nat) (role content : String) (s : Store) :
    Option MsgRow × Store :=
  match getConversationById conversationId userId s with
  | none => (none, s)
  | some _ =>
      let row : MsgRow :=
        { id := s.nextMsgId, conversation_id := conversationId,
          role := role, content := content, created_at := s.now }
      let convs' := s.convs.map (fun c =>
        if c.id == conversationId then { c with updated_at := s.now } else c)
      (some row,
        { s with msgs := s.msgs ++ [row], nextMsgId := s.nextMsgId + 1, convs := convs' })

/-- `autoGenerateTitle`: truncate the message to its first 50 characters,
appending `"..."` exactly when it was longer, and store it as the title. -/
def autoGenerateTitle (conversationId userId : Nat) (firstMessage : String) (s : Store) :
    Option ConvRow × Store :=
  let title := firstMessage.take 50 ++ (if firstMessage.length > 50 then "..." else "")
  updateConversationTitle conversationId userId title s

/-! ## Auth middleware (middleware/auth.js) -/

/-- Decoded JWT payload as produced by `services/authService.js`
(`jwt.sign({userId, ...})`; refresh tokens additionally carry
`type: 'refresh'`). -/
structure TokenPayload where
  userId : Nat
  type : String
deriving Repr, DecidableEq

/-- Outcome of an auth middleware: either an early error response
(status, message) or `next()` with `req.user` possibly set. -/
inductive AuthResult (α : Type)
  | fail (status : Nat) (msg : String)
  | proceed (user? : Option α)
deriving Repr, DecidableEq

/-- `authHeader && authHeader.split(' ')[1]`, with JS truthiness
(a missing or empty second component yields no token). -/
def bearerToken (authHeader : Option String) : Option String :=
  match authHeader with
  | none => none
  | some h =>
      match (h.splitOn " ").get? 1 with
      | none => none
      | some t => if t = "" then none else some t

/-- `authenticateToken`: strict mode — 401 without a token, 403 on a bad
token or unknown user, otherwise proceed with the looked-up user. -/
def authenticateToken {α : Type} (hdr : Option String)
    (verify : String → Option TokenPayload) (lookup : Nat → Option α) : AuthResult α :=
  match bearerToken hdr with
  | none => .fail 401 "Access token required"
  | some token =>
      match verify token with
      | none => .fail 403 "Invalid or expired token"
      | some decoded =>
          match lookup decoded.userId with
          | none => .fail 403 "User not found"
          | some user => .proceed (some user)

/-- `optionalAuth`: sets `req.user` when a valid token resolves to a
user, and otherwise proceeds anonymously; it never produces an error
response. -/
def optionalAuth {α : Type} (hdr : Option String)
    (verify : String → Option TokenPayload) (lookup : Nat → Option α) : AuthResult α :=
  match bearerToken hdr with
  | none => .proceed none
  | some token =>
      match verify token with
      | none => .proceed none
      | some decoded => .proceed (lookup decoded.userId)

/-! ## The chat endpoint (server.js, `app.post('/api/chat')`) -/

/-- One entry of the request's `messages` array. -/
structure ChatMessage where
  role : String
  content : String
deriving Repr, DecidableEq

/-- The `messages` field of the request body: absent, present but not an
array, or an array (`!messages || !Array.isArray(messages)` rejects the
first two shapes only). -/
inductive MessagesField
  | missing
  | nonArray
  | arr (messages : List ChatMessage)
deriving Repr, DecidableEq

/-- The chat request after `optionalAuth` ran: `req.user` (reduced to the
principal's user id) and the request body fields read by the handler. -/
structure ChatRequest where
  user? : Option Nat
  messagesField : MessagesField
  conversationId? : Option Nat
deriving Repr, DecidableEq

/-- The terminal payload of the upstream stream's `message` event; `text`
is the full text content of the completed assistant message. -/
structure ModelMessage where
  text : String
deriving Repr, DecidableEq

/-- Terminal event of the upstream stream: exactly one of `message`
(completed) or `error`. -/
inductive GatewayTerminal
  | completedEv (message : ModelMessage)
  | failedEv (error : String)
deriving Repr, DecidableEq

/-- One upstream streaming session: the `text` events in emission order,
then the terminal event. -/
structure GatewayStream where
  tokens : List String
  terminal : GatewayTerminal
deriving Repr, DecidableEq

/-- A server-sent event pushed to the chat client (`res.write` payloads). -/
inductive SseEvent
  | text (content : String)
  | done (message : ModelMessage) (conversationId : Option Nat)
  | error (error : String)
deriving Repr, DecidableEq

/-- The response delivered to the chat client: a 400 JSON error, a 500
JSON error from the route's catch-all, or the SSE stream (`ended` records
whether `res.end()` was reached). -/
inductive ChatResponse
  | badRequest (error : String)
  | serverError
  | stream (events : List SseEvent) (ended : Bool)
deriving Repr, DecidableEq

/-- Observable actions of one request, in order: the user-message store
write, the upstream `anthropic.messages.stream` invocation, the arrival
of the upstream terminal event, and the assistant-message store write. -/
inductive Action
  | storeUserWrite
  | gatewayInvoke
  | gatewayTerminal
  | storeAssistantWrite
deriving Repr, DecidableEq

/-- Fault injection for the two `addMessage` call sites: `true` means the
underlying INSERT throws (better-sqlite3 raising, e.g., on I/O failure).
The throw can only happen when the INSERT is reached, i.e. when the
ownership check inside `addMessage` passes. -/
structure FaultSpec where
  userWriteThrows : Bool
  assistantWriteThrows : Bool
deriving Repr, DecidableEq

/-- The fault-free execution. -/
def noFaults : FaultSpec := ⟨false, false⟩

/-- Everything observable about one request: the client-visible response,
the final store, and the ordered action trace. -/
structure ChatOutcome where
  response : ChatResponse
  store : Store
  trace : List Action
deriving Repr, DecidableEq

/-- The streaming part of the handler: relay each upstream `text` event,
accumulate `fullResponse`, and on the terminal event either emit the
`error` event, or persist the assistant message (when `req.user` and
`actualConversationId` are both set) and emit the `done` event carrying
the upstream message payload and `actualConversationId`. An exception
thrown inside the `message` callback aborts it, so neither the `done`
event nor `res.end()` happens. -/
def streamPhase (user? acid? : Option Nat) (gw : GatewayStream) (f : FaultSpec)
    (s : Store) (tr : List Action) : ChatOutcome :=
  let tokenEvents := gw.tokens.map SseEvent.text
  let fullResponse := String.join gw.tokens
  let tr := tr ++ [Action.gatewayInvoke, Action.gatewayTerminal]
  match gw.terminal with
  | .failedEv err =>
      ⟨.stream (tokenEvents ++ [SseEvent.error err]) true, s, tr⟩
  | .completedEv msg =>
      match user?, acid? with
      | some uid, some acid =>
          if f.assistantWriteThrows && (getConversationById acid uid s).isSome then
            ⟨.stream tokenEvents false, s, tr⟩
          else
            let r := addMessage acid uid "assistant" fullResponse s
            ⟨.stream (tokenEvents ++ [SseEvent.done msg acid?]) true, r.2,
              tr ++ [Action.storeAssistantWrite]⟩
      | _, _ =>
          ⟨.stream (tokenEvents ++ [SseEvent.done msg acid?]) true, s, tr⟩

/-- Step 2's tail for an identified user with a new user message and a
resolved `actualConversationId`: store the user message (a throwing
INSERT propagates to the route's catch-all, yielding the 500 response),
then run the streaming phase. -/
def persistUserAndStream (uid acid : Nat) (lum : ChatMessage) (gw : GatewayStream)
    (f : FaultSpec) (s : Store) : ChatOutcome :=
  if f.userWriteThrows && (getConversationById acid uid s).isSome then
    ⟨.serverError, s, []⟩
  else
    let r := addMessage acid uid "user" lum.content s
    streamPhase (some uid) (some acid) gw f r.2 [Action.storeUserWrite]

/-- The `/api/chat` handler: validate the `messages` field, compute
`lastUserMessage`, lazily create a conversation (titling it from that
message) when the user is identified and no `conversationId` was
supplied, store the user message, then stream. An absent result from
`createConversation` would make `conversation.id` throw; the catch-all
turns that into the 500 response. -/
def apiChat (s : Store) (req : ChatRequest) (gw : GatewayStream) (f : FaultSpec) :
    ChatOutcome :=
  match req.messagesField with
  | .missing => ⟨.badRequest "Messages array is required", s, []⟩
  | .nonArray => ⟨.badRequest "Messages array is required", s, []⟩
  | .arr messages =>
      let lastUserMessage := (messages.filter (fun m => m.role == "user")).getLast?
      match req.user?, lastUserMessage with
      | some uid, some lum =>
          match req.conversationId? with
          | some cid => persistUserAndStream uid cid lum gw f s
          | none =>
              match createConversation uid "New conversation" s with
              | (none, s₁) => ⟨.serverError, s₁, []⟩
              | (some conv, s₁) =>
                  let r := autoGenerateTitle conv.id uid lum.content s₁
                  persistUserAndStream uid conv.id lum gw f r.2
      | _, _ => streamPhase req.user? req.conversationId? gw f s []

/-! ## SSE wire format -/

/-- The JSON text of one SSE payload, as produced by `JSON.stringify`
(string escaping elided: the texts considered contain no JSON
metacharacters). `JSON.stringify` drops the `conversationId` key when
the value is `undefined`. -/
def eventBody : SseEvent → String
  | .text c => "\x7b\"type\":\"text\",\"content\":\"" ++ c ++ "\"\x7d"
  | .done m cid? =>
      "\x7b\"type\":\"done\",\"message\":\x7b\"text\":\"" ++ m.text ++ "\"\x7d" ++
        (match cid? with
         | some i => ",\"conversationId\":" ++ toString i
         | none => "") ++ "\x7d"
  | .error e => "\x7b\"type\":\"error\",\"error\":\"" ++ e ++ "\"\x7d"

/-- `res.write` of one `data: `-prefixed line followed by a blank line. -/
def serializeEvent (e : SseEvent) : String :=
  "data: " ++ eventBody e ++ "\n\n"

/-! ## Conversation CRUD routes (routes/conversations.js) -/

/-- Outcome of a conversation-management route (payloads elided; only the
status class and error text matter here). There is no "forbidden"
outcome anywhere in these routes. -/
inductive RouteOutcome
  | okJson
  | notFoundR (error : String)
  | badRequestR (error : String)
deriving Repr, DecidableEq

/-- `GET /:id` — 404 `Conversation not found` when the ownership-scoped
lookup misses. -/
def conversationGetRoute (uid cid : Nat) (s : Store) : RouteOutcome :=
  match getConversationWithMessages cid uid s with
  | none => .notFoundR "Conversation not found"
  | some _ => .okJson

/-- `PUT /:id` — 400 without a (truthy) title, else rename; 404 when the
scoped lookup after the update misses. -/
def conversationRenameRoute (uid cid : Nat) (title? : Option String) (s : Store) :
    RouteOutcome × Store :=
  match title? with
  | none => (.badRequestR "Title required", s)
  | some title =>
      if title = "" then (.badRequestR "Title required", s)
      else
        match updateConversationTitle cid uid title s with
        | (none, s') => (.notFoundR "Conversation not found", s')
        | (some _, s') => (.okJson, s')

/-- `DELETE /:id` — 404 when the scoped delete changed no row. -/
def conversationDeleteRoute (uid cid : Nat) (s : Store) : RouteOutcome × Store :=
  match deleteConversation cid uid s with
  | (false, s') => (.notFoundR "Conversation not found", s')
  | (true, s') => (.okJson, s')

/-! ## Auth routes and user service (routes/auth.js, services/userService.js) -/

/-- A row of the `users` table (`SELECT *` shape). -/
structure UserRow where
  id : Nat
  email : Option String
  password_hash : Option String
  display_name : String
  avatar_url : Option String
  auth_provider : String
  oauth_id : Option String
  preferences : Option String
  created_at : Nat
deriving Repr, DecidableEq

/-- A JSON leaf value in a response body. -/
inductive JLeaf
  | jstr (v : String)
  | jnat (v : Nat)
  | jnull
deriving Repr, DecidableEq

/-- A JSON value in a response body: a leaf or a one-level object (the
auth responses nest exactly one level deep, at the `user` key). -/
inductive JVal
  | leaf (l : JLeaf)
  | obj (fields : List (String × JLeaf))
deriving Repr, DecidableEq

/-- A JSON response body: an object given by its key/value fields. -/
def JBody := List (String × JVal)

/-- All keys occurring anywhere in a response body (top level and inside
nested objects). -/
def bodyKeys (b : JBody) : List String :=
  b.foldr (fun kv acc =>
    kv.1 :: (match kv.2 with
             | .obj fs => fs.map Prod.fst
             | .leaf _ => []) ++ acc) []

/-- JS truthiness for an optional string field: absent and `""` are falsy. -/
def jsTruthy (o : Option String) : Option String :=
  match o with
  | none => none
  | some s => if s = "" then none else some s

/-- A nullable string column as a JSON leaf. -/
def optLeaf : Option String → JLeaf
  | none => .jnull
  | some v => .jstr v

/-- The full `users` row as a JSON object (`SELECT *`, as returned by
`getUserByEmail`). -/
def userRowFields (u : UserRow) : List (String × JLeaf) :=
  [("id", .jnat u.id), ("email", optLeaf u.email),
   ("password_hash", optLeaf u.password_hash),
   ("display_name", .jstr u.display_name), ("avatar_url", optLeaf u.avatar_url),
   ("auth_provider", .jstr u.auth_provider), ("oauth_id", optLeaf u.oauth_id),
   ("preferences", optLeaf u.preferences), ("created_at", .jnat u.created_at)]

/-- The projection returned by `getUserById`: `SELECT id, email,
display_name, avatar_url, auth_provider, preferences, created_at` —
the `password_hash` column is never selected. -/
def getUserByIdFields (u : UserRow) : List (String × JLeaf) :=
  [("id", .jnat u.id), ("email", optLeaf u.email),
   ("display_name", .jstr u.display_name), ("avatar_url", optLeaf u.avatar_url),
   ("auth_provider", .jstr u.auth_provider), ("preferences", optLeaf u.preferences),
   ("created_at", .jnat u.created_at)]

/-- The rest-destructuring in the login handler: every field of the row
object except `password_hash`. -/
def stripPasswordHash (fields : List (String × JLeaf)) : List (String × JLeaf) :=
  fields.filter (fun kv => kv.1 ≠ "password_hash")

/-- An `{error: msg}` body. -/
def errBody (msg : String) : JBody := [("error", JVal.leaf (.jstr msg))]

/-- `POST /login`: validate fields, look up the full row by email, check
the credential, and respond with the row minus `password_hash` plus the
two tokens. -/
def loginHandler (email? password? : Option String)
    (getUserByEmail : String → Option UserRow)
    (comparePassword : String → String → Bool)
    (genAccess genRefresh : UserRow → String) : Nat × JBody :=
  match jsTruthy email?, jsTruthy password? with
  | some email, some password =>
      match getUserByEmail email with
      | none => (401, errBody "Invalid email or password")
      | some user =>
          match jsTruthy user.password_hash with
          | none => (401, errBody "Please login with your social account")
          | some stored =>
              if comparePassword password stored then
                (200,
                  [("user", .obj (stripPasswordHash (userRowFields user))),
                   ("accessToken", .leaf (.jstr (genAccess user))),
                   ("refreshToken", .leaf (.jstr (genRefresh user)))])
              else (401, errBody "Invalid email or password")
  | _, _ => (400, errBody "Email and password required")

/-- `POST /register`: validate, hash, create the user (`createUser`
returns the `getUserById` projection of the new row), and respond with
that projection plus the two tokens. -/
def registerHandler (email? password? displayName? : Option String)
    (emailExists : String → Bool) (hashPassword : String → String)
    (createUser : String → String → String → Option UserRow)
    (genAccess genRefresh : UserRow → String) : Nat × JBody :=
  match jsTruthy email?, jsTruthy password? with
  | some email, some password =>
      if password.length < 8 then
        (400, errBody "Password must be at least 8 characters")
      else if emailExists email then
        (400, errBody "Email already registered")
      else
        let passwordHash := hashPassword password
        let displayName := (jsTruthy displayName?).getD ((email.splitOn "@").headD email)
        match createUser email passwordHash displayName with
        | none => (500, errBody "Registration failed")
        | some user =>
            (200,
              [("user", .obj (getUserByIdFields user)),
               ("accessToken", .leaf (.jstr (genAccess user))),
               ("refreshToken", .leaf (.jstr (genRefresh user)))])
  | _, _ => (400, errBody "Email and password required")

/-- `POST /refresh`: verify the refresh token and respond with a fresh
access token only. -/
def refreshHandler (refreshToken? : Option String)
    (verify : String → Option TokenPayload) (lookup : Nat → Option UserRow)
    (genAccess : UserRow → String) : Nat × JBody :=
  match jsTruthy refreshToken? with
  | none => (400, errBody "Refresh token required")
  | some tok =>
      match verify tok with
      | none => (403, errBody "Invalid refresh token")
      | some decoded =>
          if decoded.type ≠ "refresh" then (403, errBody "Invalid refresh token")
          else
            match lookup decoded.userId with
            | none => (403, errBody "User not found")
            | some user => (200, [("accessToken", .leaf (.jstr (genAccess user)))])

/-- `GET /me`: behind `authenticateToken`, whose `req.user` is the
`getUserById` projection; respond with `{user: req.user}`. -/
def meHandler (hdr : Option String) (verify : String → Option TokenPayload)
    (lookup : Nat → Option UserRow) : Nat × JBody :=
  match authenticateToken hdr verify (fun uid => (lookup uid).map getUserByIdFields) with
  | .fail status msg => (status, errBody msg)
  | .proceed none => (200, [("user", JVal.leaf .jnull)])
  | .proceed (some fields) => (200, [("user", JVal.obj fields)])

/-! ## Helper lemmas about the store operations -/

/-- Ownership-scoped lookup over rows rewritten by an id- and
owner-preserving function. -/
theorem find?_owner_map (cid uid : Nat) (l : List ConvRow) (f : ConvRow → ConvRow)
    (hf : ∀ c, (f c).id = c.id ∧ (f c).user_id = c.user_id) :
    (l.map f).find? (fun c => c.id == cid && c.user_id == uid) =
      (l.find? (fun c => c.id == cid && c.user_id == uid)).map f := by
  rw [List.find?_map]
  have hp : ((fun c : ConvRow => c.id == cid && c.user_id == uid) ∘ f) =
      (fun c : ConvRow => c.id == cid && c.user_id == uid) := by
    funext c
    simp [Function.comp, (hf c).1, (hf c).2]
  rw [hp]

/-- A fresh autoincrement id is matched by no existing row. -/
theorem find?_fresh_none (uid : Nat) (s : Store)
    (h : ∀ c ∈ s.convs, c.id < s.nextConvId) :
    s.convs.find? (fun c => c.id == s.nextConvId && c.user_id == uid) = none := by
  rw [List.find?_eq_none]
  intro c hc
  simp only [Bool.and_eq_true, beq_iff_eq, not_and]
  intro hid
  exact absurd hid (Nat.ne_of_lt (h c hc))

/-- `createConversation` under the autoincrement invariant: the returned
row is the fresh row, and the store gains exactly that row. -/
theorem createConversation_eq (uid : Nat) (t : String) (s : Store)
    (h : ∀ c ∈ s.convs, c.id < s.nextConvId) :
    createConversation uid t s =
      (some ⟨s.nextConvId, uid, t, s.now, s.now⟩,
       { s with convs := s.convs ++ [⟨s.nextConvId, uid, t, s.now, s.now⟩],
                nextConvId := s.nextConvId + 1 }) := by
  unfold createConversation getConversationById
  simp [List.find?_append, find?_fresh_none uid s h, List.find?]

/-- `addMessage` on a missed ownership check is a no-op returning `null`. -/
theorem addMessage_not_owned (cid uid : Nat) (r ct : String) (s : Store)
    (h : getConversationById cid uid s = none) :
    addMessage cid uid r ct s = (none, s) := by
  unfold addMessage
  rw [h]

/-- `addMessage` on an owned conversation appends exactly one row and
bumps the conversation's timestamp. -/
theorem addMessage_owned (cid uid : Nat) (r ct : String) (s : Store) (c : ConvRow)
    (h : getConversationById cid uid s = some c) :
    addMessage cid uid r ct s =
      (some ⟨s.nextMsgId, cid, r, ct, s.now⟩,
       { s with msgs := s.msgs ++ [⟨s.nextMsgId, cid, r, ct, s.now⟩],
                nextMsgId := s.nextMsgId + 1,
                convs := s.convs.map (fun c =>
                  if c.id == cid then { c with updated_at := s.now } else c) }) := by
  unfold addMessage
  rw [h]

/-- The row returned by an ownership-scoped lookup matches the queried
id and owner. -/
theorem getConversationById_matches (cid uid : Nat) (s : Store) (c : ConvRow)
    (h : getConversationById cid uid s = some c) :
    c.id = cid ∧ c.user_id = uid := by
  unfold getConversationById at h
  have := List.find?_some h
  simpa using this

/-- `addMessage` preserves ownership of the conversation it wrote to. -/
theorem getConversationById_addMessage (cid uid : Nat) (r ct : String) (s : Store)
    (c : ConvRow) (h : getConversationById cid uid s = some c) :
    getConversationById cid uid (addMessage cid uid r ct s).2 =
      some { c with updated_at := s.now } := by
  have hc := getConversationById_matches cid uid s c h
  rw [addMessage_owned cid uid r ct s c h]
  simp only [getConversationById]
  rw [find?_owner_map cid uid s.convs _ (by
    intro c
    refine ⟨?_, ?_⟩ <;> (split <;> rfl))]
  have h' := h
  unfold getConversationById at h'
  rw [h']
  simp [hc.1]

/-- The `updated_at` rewrite of `addMessage` changes no id, owner or
title: any view blind to `updated_at` is preserved. -/
theorem addMessage_convs_map {α : Type} (cid uid : Nat) (r ct : String) (s : Store)
    (view : ConvRow → α)
    (hview : ∀ c, view { c with updated_at := s.now } = view c) :
    (addMessage cid uid r ct s).2.convs.map view = s.convs.map view := by
  unfold addMessage
  cases h : getConversationById cid uid s with
  | none => rfl
  | some c =>
      simp only [List.map_map]
      apply List.map_congr_left
      intro a _
      simp only [Function.comp_apply]
      split
      · exact hview a
      · rfl

/-- Concrete sample inputs used by the closed witness theorems below. -/
def emptyStore : Store := ⟨[], [], 1, 1, 0⟩

def msgHi : ChatMessage := ⟨"user", "hi"⟩

def gwOk : GatewayStream := ⟨["ok"], .completedEv ⟨"ok"⟩⟩

/-- Every streaming-phase outcome records the gateway invocation. -/
theorem streamPhase_invoke_mem (u a : Option Nat) (gw : GatewayStream) (f : FaultSpec)
    (s : Store) (tr : List Action) :
    Action.gatewayInvoke ∈ (streamPhase u a gw f s tr).trace := by
  unfold streamPhase
  cases gw.terminal with
  | failedEv err => simp
  | completedEv msg =>
      cases u with
      | none => simp
      | some uid =>
          cases a with
          | none => simp
          | some acid =>
              by_cases hf : (f.assistantWriteThrows &&
                  (getConversationById acid uid s).isSome) = true <;> simp [hf]

/-- Concatenation, in delivery order, of the `content` of the token
events in an event list. -/
def relayedText : List SseEvent → String
  | [] => ""
  | .text c :: rest => c ++ relayedText rest
  | .done _ _ :: rest => relayedText rest
  | .error _ :: rest => relayedText rest

theorem string_foldl_append (a : String) (l : List String) :
    l.foldl (fun r s => r ++ s) a = a ++ l.foldl (fun r s => r ++ s) "" := by
  induction l generalizing a with
  | nil => simp
  | cons x xs ih =>
      simp only [List.foldl_cons]
      rw [ih (a ++ x), ih ("" ++ x)]
      simp [String.append_assoc]

theorem string_join_cons (x : String) (xs : List String) :
    String.join (x :: xs) = x ++ String.join xs := by
  unfold String.join
  simp only [List.foldl_cons]
  rw [string_foldl_append ("" ++ x) xs]
  simp

/-- The relayed text of a token-event block followed by a terminal block
with no token events is the join of the tokens. -/
theorem relayedText_tokens (tks : List String) (rest : List SseEvent)
    (h : relayedText rest = "") :
    relayedText (tks.map SseEvent.text ++ rest) = String.join tks := by
  induction tks with
  | nil => simpa [relayedText, String.join]
  | cons x xs ih =>
      simp only [List.map_cons, List.cons_append, relayedText]
      rw [string_join_cons]
      exact congrArg (fun t => x ++ t) ih

/-- `updateConversationTitle` touches only the conversations table. -/
theorem updateConversationTitle_msgs (cid uid : Nat) (t : String) (s : Store) :
    (updateConversationTitle cid uid t s).2.msgs = s.msgs := rfl

theorem updateConversationTitle_nextMsgId (cid uid : Nat) (t : String) (s : Store) :
    (updateConversationTitle cid uid t s).2.nextMsgId = s.nextMsgId := rfl

theorem updateConversationTitle_now (cid uid : Nat) (t : String) (s : Store) :
    (updateConversationTitle cid uid t s).2.now = s.now := rfl

/-- Ownership-scoped lookup after a rename of the same conversation. -/
theorem getConversationById_updateTitle (cid uid : Nat) (t : String) (s : Store)
    (c : ConvRow) (h : getConversationById cid uid s = some c) :
    getConversationById cid uid (updateConversationTitle cid uid t s).2 =
      some { c with title := t, updated_at := s.now } := by
  have hc := getConversationById_matches cid uid s c h
  unfold updateConversationTitle getConversationById
  simp only
  rw [find?_owner_map cid uid s.convs _ (by
    intro c
    refine ⟨?_, ?_⟩ <;> (split <;> rfl))]
  unfold getConversationById at h
  rw [h]
  simp [hc.1, hc.2]

/-- The ownership-scoped lookup of the fresh autoincrement row after an
append. -/
theorem getConversationById_snoc_fresh (uid : Nat) (t : String) (s : Store)
    (h : ∀ c ∈ s.convs, c.id < s.nextConvId) :
    getConversationById s.nextConvId uid
      { s with convs := s.convs ++ [⟨s.nextConvId, uid, t, s.now, s.now⟩],
               nextConvId := s.nextConvId + 1 } =
      some ⟨s.nextConvId, uid, t, s.now, s.now⟩ := by
  unfold getConversationById
  simp [List.find?_append, find?_fresh_none uid s h, List.find?]

/-- `addMessage` either misses the ownership check (leaving the store
unchanged) or appends exactly one message row. -/
theorem addMessage_msgs (cid uid : Nat) (r ct : String) (s : Store) :
    (addMessage cid uid r ct s).2.msgs = s.msgs ∨
    (addMessage cid uid r ct s).2.msgs =
      s.msgs ++ [⟨s.nextMsgId, cid, r, ct, s.now⟩] := by
  unfold addMessage
  cases h : getConversationById cid uid s with
  | none => exact Or.inl rfl
  | some c => exact Or.inr rfl

theorem addMessage_now (cid uid : Nat) (r ct : String) (s : Store) :
    (addMessage cid uid r ct s).2.now = s.now := by
  unfold addMessage
  cases h : getConversationById cid uid s <;> rfl

/-- The fault-free completed-stream phase: the response is the token
events followed by the `done` event, and the store gains at most one
assistant message whose text is the accumulated token join. -/
theorem streamPhase_completed_noFaults (u a : Option Nat) (tks : List String)
    (msg : ModelMessage) (s : Store) (tr : List Action) :
    (streamPhase u a ⟨tks, .completedEv msg⟩ noFaults s tr).response =
      .stream (tks.map SseEvent.text ++ [SseEvent.done msg a]) true ∧
    ((streamPhase u a ⟨tks, .completedEv msg⟩ noFaults s tr).store.msgs = s.msgs ∨
     ∃ acid, (streamPhase u a ⟨tks, .completedEv msg⟩ noFaults s tr).store.msgs =
       s.msgs ++ [⟨s.nextMsgId, acid, "assistant", String.join tks, s.now⟩]) := by
  cases u with
  | none => exact ⟨rfl, Or.inl rfl⟩
  | some uid =>
      cases a with
      | none => exact ⟨rfl, Or.inl rfl⟩
      | some acid =>
          refine ⟨?_, ?_⟩
          · simp only [streamPhase, noFaults, Bool.false_and, Bool.false_eq_true, if_false]
          · simp only [streamPhase, noFaults, Bool.false_and, Bool.false_eq_true, if_false]
            rcases addMessage_msgs acid uid "assistant" (String.join tks) s with hm | hm
            · exact Or.inl hm
            · exact Or.inr ⟨acid, hm⟩

/-- The fresh-conversation persistence path of the chat handler: with an
identified user, a last user message and no supplied conversation id, the
handler creates the conversation, titles it by truncation of that
message, stores the user message, and hands the fresh conversation id to
the streaming phase. -/
theorem apiChat_fresh_path (s : Store) (uid : Nat) (ms : List ChatMessage)
    (lum : ChatMessage) (gw : GatewayStream)
    (hWF : s.WF)
    (hl : (ms.filter (fun m => m.role == "user")).getLast? = some lum) :
    ∃ s₂ c₂,
      apiChat s ⟨some uid, .arr ms, none⟩ gw noFaults =
        streamPhase (some uid) (some s.nextConvId) gw noFaults s₂
          [Action.storeUserWrite] ∧
      getConversationById s.nextConvId uid s₂ = some c₂ ∧
      c₂.title = lum.content.take 50 ++
        (if lum.content.length > 50 then "..." else "") ∧
      s₂.msgs = s.msgs ++ [⟨s.nextMsgId, s.nextConvId, "user", lum.content, s.now⟩] ∧
      s₂.now = s.now ∧
      s₂.nextMsgId = s.nextMsgId + 1 := by
  unfold apiChat
  simp only [hl]
  rw [createConversation_eq uid "New conversation" s hWF.1]
  simp only [autoGenerateTitle]
  have hgb1 := getConversationById_snoc_fresh uid "New conversation" s hWF.1
  set sExp : Store :=
    { s with convs := s.convs ++ [⟨s.nextConvId, uid, "New conversation", s.now, s.now⟩],
             nextConvId := s.nextConvId + 1 } with hsExp
  set T : String :=
    lum.content.take 50 ++ (if lum.content.length > 50 then "..." else "") with hT
  have hgb2 := getConversationById_updateTitle s.nextConvId uid T sExp _ hgb1
  set sTitled : Store := (updateConversationTitle s.nextConvId uid T sExp).2 with hsTitled
  have hgb3 := getConversationById_addMessage s.nextConvId uid "user" lum.content
    sTitled _ hgb2
  refine ⟨(addMessage s.nextConvId uid "user" lum.content sTitled).2, _, ?_, hgb3, ?_, ?_, ?_, ?_⟩
  · simp only [persistUserAndStream, noFaults, Bool.false_and, Bool.false_eq_true, if_false]
  · rfl
  · rw [addMessage_owned s.nextConvId uid "user" lum.content sTitled _ hgb2]
    rfl
  · rw [addMessage_now]
    rfl
  · rw [addMessage_owned s.nextConvId uid "user" lum.content sTitled _ hgb2]
    rfl

/-- The completed fault-free stream phase over an owned conversation
appends the assistant message whose content is the token join. -/
theorem streamPhase_completed_owned (uid acid : Nat) (tks : List String)
    (msg : ModelMessage) (s : Store) (tr : List Action) (c : ConvRow)
    (h : getConversationById acid uid s = some c) :
    (streamPhase (some uid) (some acid) ⟨tks, .completedEv msg⟩ noFaults s tr).store.msgs =
      s.msgs ++ [⟨s.nextMsgId, acid, "assistant", String.join tks, s.now⟩] := by
  simp only [streamPhase, noFaults, Bool.false_and, Bool.false_eq_true, if_false]
  rw [addMessage_owned acid uid "assistant" (String.join tks) s c h]

/-- Response and persisted-role analysis of the completed stream phase,
relative to a base store whose message table the pre-stream store extends
by at most one user-role row. -/
theorem streamPhase_completed_analysis (u a : Option Nat) (tks : List String)
    (msg : ModelMessage) (s₀ s' : Store) (tr : List Action)
    (hmsgs : s'.msgs = s₀.msgs ∨
      ∃ urow : MsgRow, urow.role = "user" ∧ s'.msgs = s₀.msgs ++ [urow])
    (hjoin : msg.text = String.join tks) :
    (∃ evs, (streamPhase u a ⟨tks, .completedEv msg⟩ noFaults s' tr).response =
        .stream evs true ∧ relayedText evs = msg.text) ∧
    (∀ m ∈ (streamPhase u a ⟨tks, .completedEv msg⟩ noFaults s' tr).store.msgs,
      m.role = "assistant" → m ∈ s₀.msgs ∨ m.content = msg.text) := by
  obtain ⟨hresp, hst⟩ := streamPhase_completed_noFaults u a tks msg s' tr
  constructor
  · refine ⟨_, hresp, ?_⟩
    rw [relayedText_tokens tks [SseEvent.done msg a] rfl]
    exact hjoin.symm
  · have haux : ∀ m' ∈ s'.msgs, m'.role = "assistant" → m' ∈ s₀.msgs := by
      intro m' hm' hr'
      rcases hmsgs with h0 | ⟨urow, hurole, h0⟩
      · rwa [h0] at hm'
      · rw [h0] at hm'
        rcases List.mem_append.1 hm' with h | h
        · exact h
        · have he : m' = urow := by simpa using h
          exact absurd (he ▸ hr') (by rw [hurole]; decide)
    intro m hm hrole
    rcases hst with hst | ⟨acid, hst⟩
    · rw [hst] at hm
      exact Or.inl (haux m hm hrole)
    · rw [hst] at hm
      rcases List.mem_append.1 hm with h | h
      · exact Or.inl (haux m h hrole)
      · have he : m = ⟨s'.nextMsgId, acid, "assistant", String.join tks, s'.now⟩ := by
          simpa using h
        rw [he]
        exact Or.inr hjoin.symm

/-! ## Claims -/

/--
C1: the claim asserts that an authenticated request carrying a
conversation id that is unknown or not owned behaves identically to a
request with no conversation id — a fresh conversation created and the
turn persisted in it. On the code this is false: with a forged id the
`!actualConversationId` guard is not taken, so no conversation is
created, and the ownership-scoped `addMessage` silently returns `null`,
so nothing at all is persisted — the two runs end in different stores.
-/
theorem C1_counterexample :
    (apiChat emptyStore ⟨some 1, .arr [msgHi], some 99⟩ gwOk noFaults).store = emptyStore ∧
    (apiChat emptyStore ⟨some 1, .arr [msgHi], none⟩ gwOk noFaults).store.convs.length = 1 ∧
    (apiChat emptyStore ⟨some 1, .arr [msgHi], some 99⟩ gwOk noFaults).store ≠
      (apiChat emptyStore ⟨some 1, .arr [msgHi], none⟩ gwOk noFaults).store := by
  decide

/--
C1 (amended): for every authenticated chat request whose supplied
conversation id does not exist or is not owned by the principal, the
orchestrator never responds with a permission-denied signal — the
response is an ordinary event stream — but it does not fall back to a
fresh conversation: the ownership-scoped store calls return `null`, the
store is left completely unchanged, and no row is persisted for the turn.
-/
theorem C1_amended_silent_skip (s : Store) (uid cid : Nat) (ms : List ChatMessage)
    (gw : GatewayStream) (h : getConversationById cid uid s = none) :
    (apiChat s ⟨some uid, .arr ms, some cid⟩ gw noFaults).store = s ∧
    ∃ evs, (apiChat s ⟨some uid, .arr ms, some cid⟩ gw noFaults).response =
      .stream evs true := by
  have ha : ∀ r ct, addMessage cid uid r ct s = (none, s) := fun r ct =>
    addMessage_not_owned cid uid r ct s h
  obtain ⟨tks, term⟩ := gw
  unfold apiChat
  cases hl : (ms.filter (fun m => m.role == "user")).getLast? with
  | none =>
      simp only [hl]
      cases term <;>
        simp [streamPhase, noFaults, ha]
  | some lum =>
      simp only [hl]
      cases term <;>
        simp [persistUserAndStream, streamPhase, noFaults, ha]

/-- C1 (amended) witness at a concrete forged id. -/
theorem C1_amended_silent_skip_witness :
    (apiChat emptyStore ⟨some 1, .arr [msgHi], some 99⟩ gwOk noFaults).store = emptyStore ∧
    ∃ evs, (apiChat emptyStore ⟨some 1, .arr [msgHi], some 99⟩ gwOk noFaults).response =
      .stream evs true :=
  C1_amended_silent_skip emptyStore 1 99 [msgHi] gwOk (by decide)

/--
C2: the claim asserts that an empty message history is rejected as a
client error before the gateway is invoked. On the code this is false:
the validation only checks `!messages || !Array.isArray(messages)`, and
an empty array is a truthy array, so the request proceeds to the
upstream streaming call.
-/
theorem C2_counterexample :
    Action.gatewayInvoke ∈
      (apiChat emptyStore ⟨none, .arr [], none⟩ gwOk noFaults).trace ∧
    (apiChat emptyStore ⟨none, .arr [], none⟩ gwOk noFaults).response ≠
      .badRequest "Messages array is required" := by
  decide

/--
C2 (amended): only a missing or non-array `messages` field is rejected
with the 400 client error before any gateway call; an array — including
the empty array — always reaches the gateway invocation.
-/
theorem C2_amended (s : Store) (req : ChatRequest) (gw : GatewayStream)
    (ms : List ChatMessage) :
    ((req.messagesField = .missing ∨ req.messagesField = .nonArray) →
      (apiChat s req gw noFaults).response = .badRequest "Messages array is required" ∧
      Action.gatewayInvoke ∉ (apiChat s req gw noFaults).trace) ∧
    (s.WF → req.messagesField = .arr ms →
      Action.gatewayInvoke ∈ (apiChat s req gw noFaults).trace) := by
  constructor
  · rintro (h | h) <;> simp [apiChat, h]
  · intro hwf harr
    obtain ⟨req_user, req_mf, req_cid⟩ := req
    cases harr
    simp only [apiChat]
    cases req_user with
    | none => exact streamPhase_invoke_mem _ _ _ _ _ _
    | some uid =>
        cases hl : (ms.filter (fun m => m.role == "user")).getLast? with
        | none =>
            simp only [hl]
            exact streamPhase_invoke_mem _ _ _ _ _ _
        | some lum =>
            simp only [hl]
            cases req_cid with
            | some cid =>
                simp only [persistUserAndStream, noFaults, Bool.false_and,
                  Bool.false_eq_true, if_false]
                exact streamPhase_invoke_mem _ _ _ _ _ _
            | none =>
                rw [createConversation_eq uid "New conversation" s hwf.1]
                simp only [persistUserAndStream, noFaults, Bool.false_and,
                  Bool.false_eq_true, if_false]
                exact streamPhase_invoke_mem _ _ _ _ _ _

/-- C2 (amended) witness: a missing field is rejected; an empty array
reaches the gateway. -/
theorem C2_amended_witness :
    (apiChat emptyStore ⟨none, .missing, none⟩ gwOk noFaults).response =
      .badRequest "Messages array is required" ∧
    Action.gatewayInvoke ∈
      (apiChat emptyStore ⟨none, .arr [], none⟩ gwOk noFaults).trace :=
  ⟨((C2_amended emptyStore ⟨none, .missing, none⟩ gwOk []).1 (Or.inl rfl)).1,
   (C2_amended emptyStore ⟨none, .arr [], none⟩ gwOk []).2 (by simp [Store.WF, emptyStore]) rfl⟩

/--
C3: for every chat request whose gateway stream completes successfully
(terminal `message` event whose full text is the join of the emitted
`text` events), the concatenation in delivery order of the token events
relayed to the client equals the full-message text carried by the
terminal `done` event; every assistant message newly persisted by the
request carries exactly that text; and when a principal is resolved and a
fresh conversation is created, that text is indeed persisted as the
assistant message.
-/
theorem C3_relay_done_persist (s : Store) (req : ChatRequest) (gw : GatewayStream)
    (ms : List ChatMessage) (msg : ModelMessage) (uid : Nat) (lum : ChatMessage)
    (hWF : s.WF)
    (harr : req.messagesField = .arr ms)
    (hterm : gw.terminal = .completedEv msg)
    (hgw : msg.text = String.join gw.tokens) :
    (∃ evs, (apiChat s req gw noFaults).response = .stream evs true ∧
      relayedText evs = msg.text) ∧
    (∀ m ∈ (apiChat s req gw noFaults).store.msgs,
      m.role = "assistant" → m ∈ s.msgs ∨ m.content = msg.text) ∧
    (req.user? = some uid → req.conversationId? = none →
      (ms.filter (fun m => m.role == "user")).getLast? = some lum →
      ∃ m ∈ (apiChat s req gw noFaults).store.msgs,
        m.role = "assistant" ∧ m.content = msg.text) := by
  obtain ⟨ru, rmf, rcid⟩ := req
  obtain ⟨tks, term⟩ := gw
  simp only at harr hterm hgw
  subst harr
  subst hterm
  cases ru with
  | none =>
      have heq : apiChat s ⟨none, .arr ms, rcid⟩ ⟨tks, .completedEv msg⟩ noFaults =
          streamPhase none rcid ⟨tks, .completedEv msg⟩ noFaults s [] := by
        cases hl : (ms.filter (fun m => m.role == "user")).getLast? <;>
          simp only [apiChat, hl]
      rw [heq]
      obtain ⟨h1, h2⟩ := streamPhase_completed_analysis none rcid tks msg s s []
        (Or.inl rfl) hgw
      exact ⟨h1, h2, fun h => absurd h (by simp)⟩
  | some uid' =>
      cases hl : (ms.filter (fun m => m.role == "user")).getLast? with
      | none =>
          have heq : apiChat s ⟨some uid', .arr ms, rcid⟩ ⟨tks, .completedEv msg⟩ noFaults =
              streamPhase (some uid') rcid ⟨tks, .completedEv msg⟩ noFaults s [] := by
            simp only [apiChat, hl]
          rw [heq]
          obtain ⟨h1, h2⟩ := streamPhase_completed_analysis (some uid') rcid tks msg s s []
            (Or.inl rfl) hgw
          exact ⟨h1, h2, fun _ _ hlast => by cases hlast⟩
      | some lum' =>
          cases rcid with
          | some cid =>
              have heq : apiChat s ⟨some uid', .arr ms, some cid⟩
                  ⟨tks, .completedEv msg⟩ noFaults =
                  streamPhase (some uid') (some cid) ⟨tks, .completedEv msg⟩ noFaults
                    (addMessage cid uid' "user" lum'.content s).2
                    [Action.storeUserWrite] := by
                simp only [apiChat, hl, persistUserAndStream, noFaults, Bool.false_and,
                  Bool.false_eq_true, if_false]
              rw [heq]
              have hmsgs : (addMessage cid uid' "user" lum'.content s).2.msgs = s.msgs ∨
                  ∃ urow : MsgRow, urow.role = "user" ∧
                    (addMessage cid uid' "user" lum'.content s).2.msgs =
                      s.msgs ++ [urow] := by
                rcases addMessage_msgs cid uid' "user" lum'.content s with h | h
                · exact Or.inl h
                · exact Or.inr ⟨_, rfl, h⟩
              obtain ⟨h1, h2⟩ := streamPhase_completed_analysis (some uid') (some cid)
                tks msg s _ [Action.storeUserWrite] hmsgs hgw
              exact ⟨h1, h2, fun _ hnone => absurd hnone (by simp)⟩
          | none =>
              obtain ⟨s₂, c₂, heq, hgb, htitle, hmsgs2, hnow, hnext⟩ :=
                apiChat_fresh_path s uid' ms lum' ⟨tks, .completedEv msg⟩ hWF hl
              rw [heq]
              have hmsgs : s₂.msgs = s.msgs ∨
                  ∃ urow : MsgRow, urow.role = "user" ∧ s₂.msgs = s.msgs ++ [urow] :=
                Or.inr ⟨_, rfl, hmsgs2⟩
              obtain ⟨h1, h2⟩ := streamPhase_completed_analysis (some uid')
                (some s.nextConvId) tks msg s s₂ [Action.storeUserWrite] hmsgs hgw
              refine ⟨h1, h2, fun _ _ _ => ?_⟩
              rw [streamPhase_completed_owned uid' s.nextConvId tks msg s₂
                [Action.storeUserWrite] c₂ hgb]
              refine ⟨⟨s₂.nextMsgId, s.nextConvId, "assistant", String.join tks, s₂.now⟩,
                ?_, rfl, hgw.symm⟩
              simp

/-- C3 witness at a concrete completing stream. -/
theorem C3_relay_done_persist_witness :
    (∃ evs, (apiChat emptyStore ⟨some 1, .arr [msgHi], none⟩ gwOk noFaults).response =
        .stream evs true ∧ relayedText evs = "ok") ∧
    (∃ m ∈ (apiChat emptyStore ⟨some 1, .arr [msgHi], none⟩ gwOk noFaults).store.msgs,
      m.role = "assistant" ∧ m.content = "ok") := by
  have h := C3_relay_done_persist emptyStore ⟨some 1, .arr [msgHi], none⟩ gwOk
    [msgHi] ⟨"ok"⟩ 1 msgHi (by simp [Store.WF, emptyStore]) rfl rfl (by decide)
  exact ⟨h.1, h.2.2 rfl rfl (by decide)⟩

/-- A store holding one conversation (id 1) owned by user 1. -/
def storeWithConv : Store := ⟨[⟨1, 1, "t", 0, 0⟩], [], 2, 1, 0⟩

/-- A gateway stream failing before any token. -/
def gwFail : GatewayStream := ⟨[], .failedEv "boom"⟩

/--
C4: the claim asserts that a store-write failure is logged and swallowed
and never changes the response delivered to the chat client. On the code
this is false: the two `addMessage` calls are not wrapped in their own
try/catch, so a throwing user-message INSERT propagates to the route's
catch-all and turns the whole response into a 500 JSON error (no stream
at all), unlike the fault-free run of the same request.
-/
theorem C4_counterexample :
    (apiChat emptyStore ⟨some 1, .arr [msgHi], none⟩ gwOk ⟨true, false⟩).response =
      .serverError ∧
    (apiChat emptyStore ⟨some 1, .arr [msgHi], none⟩ gwOk noFaults).response =
      .stream [.text "ok", .done ⟨"ok"⟩ (some 1)] true := by
  decide

/--
C4 (amended): a store-write failure is not swallowed. A throwing
user-message write occurs before the transport opens and is propagated to
the route's catch-all, producing a 500 error response instead of a
stream; a throwing assistant-message write aborts the completion
callback, so the `done` event is never emitted and the transport is left
unended. Only the non-throwing null result of a failed ownership check is
silently skipped.
-/
theorem C4_amended_store_failure_visible (s : Store) (uid cid : Nat)
    (ms : List ChatMessage) (lum : ChatMessage) (gw : GatewayStream) (c : ConvRow)
    (hl : (ms.filter (fun m => m.role == "user")).getLast? = some lum)
    (hown : getConversationById cid uid s = some c) :
    (apiChat s ⟨some uid, .arr ms, some cid⟩ gw ⟨true, false⟩).response =
      .serverError ∧
    (∀ msg, gw.terminal = .completedEv msg →
      (apiChat s ⟨some uid, .arr ms, some cid⟩ gw ⟨false, true⟩).response =
        .stream (gw.tokens.map SseEvent.text) false) := by
  constructor
  · simp only [apiChat, hl, persistUserAndStream, hown, Option.isSome_some,
      Bool.and_true, if_true]
  · intro msg hterm
    obtain ⟨tks, term⟩ := gw
    simp only at hterm
    subst hterm
    have hgb := getConversationById_addMessage cid uid "user" lum.content s c hown
    simp only [apiChat, hl, persistUserAndStream, Bool.false_and, Bool.false_eq_true,
      if_false, streamPhase, hgb, Option.isSome_some, Bool.and_true, if_true]

/-- C4 (amended) witness at a concrete owned conversation. -/
theorem C4_amended_store_failure_visible_witness :
    (apiChat storeWithConv ⟨some 1, .arr [msgHi], some 1⟩ gwOk ⟨true, false⟩).response =
      .serverError ∧
    (apiChat storeWithConv ⟨some 1, .arr [msgHi], some 1⟩ gwOk ⟨false, true⟩).response =
      .stream [SseEvent.text "ok"] false :=
  have h := C4_amended_store_failure_visible storeWithConv 1 1 [msgHi] msgHi gwOk
    ⟨1, 1, "t", 0, 0⟩ (by decide) (by decide)
  ⟨h.1, h.2 ⟨"ok"⟩ rfl⟩

/--
C5: within one chat request with a resolved principal and an owned
conversation, the user-message store write strictly precedes the gateway
invocation and the assistant-message store write strictly follows the
terminal gateway event (visible in the action trace); and if the gateway
fails before emitting any token, the client receives exactly one `error`
event before the transport closes, the user message is already stored,
and no assistant message is stored.
-/
theorem C5_ordering (s : Store) (uid cid : Nat) (ms : List ChatMessage)
    (lum : ChatMessage) (gw : GatewayStream) (c : ConvRow)
    (hl : (ms.filter (fun m => m.role == "user")).getLast? = some lum)
    (hown : getConversationById cid uid s = some c) :
    ((∀ msg, gw.terminal = .completedEv msg →
        (apiChat s ⟨some uid, .arr ms, some cid⟩ gw noFaults).trace =
          [.storeUserWrite, .gatewayInvoke, .gatewayTerminal, .storeAssistantWrite]) ∧
     (∀ e, gw.terminal = .failedEv e →
        (apiChat s ⟨some uid, .arr ms, some cid⟩ gw noFaults).trace =
          [.storeUserWrite, .gatewayInvoke, .gatewayTerminal])) ∧
    (∀ e, gw.tokens = [] → gw.terminal = .failedEv e →
      (apiChat s ⟨some uid, .arr ms, some cid⟩ gw noFaults).response =
        .stream [SseEvent.error e] true ∧
      (apiChat s ⟨some uid, .arr ms, some cid⟩ gw noFaults).store.msgs =
        s.msgs ++ [⟨s.nextMsgId, cid, "user", lum.content, s.now⟩] ∧
      (apiChat s ⟨some uid, .arr ms, some cid⟩ gw noFaults).store.msgs.filter
          (fun m => m.role == "assistant") =
        s.msgs.filter (fun m => m.role == "assistant")) := by
  obtain ⟨tks, term⟩ := gw
  have hgb := getConversationById_addMessage cid uid "user" lum.content s c hown
  have hadd := addMessage_owned cid uid "user" lum.content s c hown
  refine ⟨⟨?_, ?_⟩, ?_⟩
  · intro msg hterm
    simp only at hterm
    subst hterm
    simp only [apiChat, hl, persistUserAndStream, Bool.false_and, Bool.false_eq_true,
      if_false, streamPhase, noFaults, hgb]
    rfl
  · intro e hterm
    simp only at hterm
    subst hterm
    simp only [apiChat, hl, persistUserAndStream, Bool.false_and, Bool.false_eq_true,
      if_false, streamPhase, noFaults]
    rfl
  · intro e htks hterm
    simp only at htks hterm
    subst htks
    subst hterm
    refine ⟨?_, ?_, ?_⟩
    · simp only [apiChat, hl, persistUserAndStream, Bool.false_and, Bool.false_eq_true,
        if_false, streamPhase, noFaults, List.map_nil, List.nil_append]
    · simp only [apiChat, hl, persistUserAndStream, Bool.false_and, Bool.false_eq_true,
        if_false, streamPhase, noFaults]
      rw [hadd]
    · simp only [apiChat, hl, persistUserAndStream, Bool.false_and, Bool.false_eq_true,
        if_false, streamPhase, noFaults]
      rw [hadd]
      simp [List.filter_append]

/-- C5 witness: a pre-token failure at a concrete owned conversation. -/
theorem C5_ordering_witness :
    (apiChat storeWithConv ⟨some 1, .arr [msgHi], some 1⟩ gwFail noFaults).trace =
      [Action.storeUserWrite, Action.gatewayInvoke, Action.gatewayTerminal] ∧
    (apiChat storeWithConv ⟨some 1, .arr [msgHi], some 1⟩ gwFail noFaults).response =
      .stream [SseEvent.error "boom"] true :=
  have h := C5_ordering storeWithConv 1 1 [msgHi] msgHi gwFail ⟨1, 1, "t", 0, 0⟩
    (by decide) (by decide)
  ⟨h.1.2 "boom" rfl, (h.2 "boom" rfl rfl).1⟩

/-- The store of the fault-free completed stream phase with both a user
and a conversation id resolved is the assistant-append store. -/
theorem streamPhase_completed_store (uid acid : Nat) (tks : List String)
    (msg : ModelMessage) (s : Store) (tr : List Action) :
    (streamPhase (some uid) (some acid) ⟨tks, .completedEv msg⟩ noFaults s tr).store =
      (addMessage acid uid "assistant" (String.join tks) s).2 := by
  simp only [streamPhase, noFaults, Bool.false_and, Bool.false_eq_true, if_false]

/-- The stream phase never changes a conversation's id, owner or title. -/
theorem streamPhase_convs_map {α : Type} (u a : Option Nat) (gw : GatewayStream)
    (s : Store) (tr : List Action) (view : ConvRow → α)
    (hview : ∀ c, view { c with updated_at := s.now } = view c) :
    (streamPhase u a gw noFaults s tr).store.convs.map view = s.convs.map view := by
  obtain ⟨tks, term⟩ := gw
  cases term with
  | failedEv e => rfl
  | completedEv msg =>
      cases u with
      | none => rfl
      | some uid =>
          cases a with
          | none => rfl
          | some acid =>
              rw [streamPhase_completed_store]
              exact addMessage_convs_map acid uid "assistant" (String.join tks) s
                view hview

/--
C6: for every conversation freshly created by an authenticated chat
request, the conversation's title equals the first 50 characters of the
conversation's first user message — the message persisted at creation —
with "..." appended exactly when that message exceeds 50 characters; and
the derivation runs only at creation: a turn carrying a conversation id
never changes any conversation's title.
-/
theorem C6_title_truncation_once (s : Store) (uid : Nat) (ms : List ChatMessage)
    (lum : ChatMessage) (gw : GatewayStream)
    (hl : (ms.filter (fun m => m.role == "user")).getLast? = some lum) :
    (s.WF →
      ∃ c ∈ (apiChat s ⟨some uid, .arr ms, none⟩ gw noFaults).store.convs,
        c.id = s.nextConvId ∧
        c.title = lum.content.take 50 ++
          (if lum.content.length > 50 then "..." else "") ∧
        ((apiChat s ⟨some uid, .arr ms, none⟩ gw noFaults).store.msgs.filter
            (fun m => m.conversation_id == s.nextConvId && m.role == "user")).map
          (fun m => m.content) = [lum.content]) ∧
    (∀ cid, (apiChat s ⟨some uid, .arr ms, some cid⟩ gw noFaults).store.convs.map
        (fun c => (c.id, c.title)) = s.convs.map (fun c => (c.id, c.title))) := by
  constructor
  · intro hWF
    obtain ⟨s₂, c₂, heq, hgb, htitle, hmsgs, hnow, hnext⟩ :=
      apiChat_fresh_path s uid ms lum gw hWF hl
    rw [heq]
    have hc₂mem : c₂ ∈ s₂.convs := List.mem_of_find?_eq_some hgb
    have hids := getConversationById_matches _ _ _ _ hgb
    have hold : s.msgs.filter
        (fun m => m.conversation_id == s.nextConvId && m.role == "user") = [] := by
      rw [List.filter_eq_nil_iff]
      intro m hm
      have hlt := hWF.2.2 m hm
      simp only [Bool.and_eq_true, beq_iff_eq, not_and]
      intro hcid
      exact absurd hcid (Nat.ne_of_lt hlt)
    obtain ⟨tks, term⟩ := gw
    cases term with
    | failedEv e =>
        refine ⟨c₂, ?_, hids.1, htitle, ?_⟩
        · exact hc₂mem
        · show (s₂.msgs.filter _).map _ = _
          rw [hmsgs]
          simp [List.filter_append, hold]
    | completedEv msg =>
        rw [streamPhase_completed_store]
        rw [addMessage_owned s.nextConvId uid "assistant" (String.join tks) s₂ c₂ hgb]
        have hfc : (if c₂.id == s.nextConvId then
            { c₂ with updated_at := s₂.now } else c₂) =
            { c₂ with updated_at := s₂.now } := by
          simp [hids.1]
        refine ⟨{ c₂ with updated_at := s₂.now }, ?_, hids.1, htitle, ?_⟩
        · rw [← hfc]
          exact List.mem_map_of_mem _ hc₂mem
        · show ((s₂.msgs ++ _).filter _).map _ = _
          rw [hmsgs]
          simp [List.filter_append, hold]
  · intro cid
    have hth : noFaults.userWriteThrows = false := rfl
    simp only [apiChat, hl, persistUserAndStream, hth, Bool.false_and,
      Bool.false_eq_true, if_false]
    rw [streamPhase_convs_map (some uid) (some cid) gw
      (addMessage cid uid "user" lum.content s).2 [Action.storeUserWrite]
      (fun c => (c.id, c.title)) (fun c => rfl)]
    exact addMessage_convs_map cid uid "user" lum.content s
      (fun c => (c.id, c.title)) (fun c => rfl)

set_option maxRecDepth 8000 in
/-- C6 witness: a 60-character first message is truncated to 50
characters plus the ellipsis marker, and a follow-up turn preserves
titles. -/
theorem C6_title_truncation_once_witness :
    (∃ c ∈ (apiChat emptyStore
        ⟨some 1, .arr [⟨"user", String.mk (List.replicate 60 'a')⟩], none⟩
        gwOk noFaults).store.convs,
      c.id = 1 ∧
      c.title = String.mk (List.replicate 50 'a') ++ "..." ∧
      ((apiChat emptyStore
          ⟨some 1, .arr [⟨"user", String.mk (List.replicate 60 'a')⟩], none⟩
          gwOk noFaults).store.msgs.filter
          (fun m => m.conversation_id == 1 && m.role == "user")).map
        (fun m => m.content) = [String.mk (List.replicate 60 'a')]) ∧
    (apiChat storeWithConv ⟨some 1, .arr [msgHi], some 1⟩ gwOk noFaults).store.convs.map
        (fun c => (c.id, c.title)) =
      storeWithConv.convs.map (fun c => (c.id, c.title)) := by
  have h1 := (C6_title_truncation_once emptyStore 1
    [⟨"user", String.mk (List.replicate 60 'a')⟩]
    ⟨"user", String.mk (List.replicate 60 'a')⟩ gwOk (by decide)).1
    (by simp [Store.WF, emptyStore])
  have h2 := (C6_title_truncation_once storeWithConv 1 [msgHi] msgHi gwOk
    (by decide)).2 1
  refine ⟨?_, h2⟩
  obtain ⟨c, hc, hid, htitle, hcontent⟩ := h1
  refine ⟨c, hc, ?_, ?_, ?_⟩
  · simpa [emptyStore] using hid
  · rw [htitle]
    decide
  · simpa [emptyStore] using hcontent

/--
C7: every store operation invoked with an owner id that does not match
the conversation's owner — lookup, lookup with messages, rename, delete,
append — produces a result indistinguishable from the conversation not
existing (absent result, false, or the routes' 404 "Conversation not
found"), never a forbidden signal, and leaves the store unchanged.
-/
theorem C7_ownership_scope (s : Store) (uid cid : Nat) (t r ct : String)
    (h : ∀ c ∈ s.convs, c.id = cid → c.user_id ≠ uid) :
    getConversationById cid uid s = none ∧
    getConversationWithMessages cid uid s = none ∧
    updateConversationTitle cid uid t s = (none, s) ∧
    deleteConversation cid uid s = (false, s) ∧
    addMessage cid uid r ct s = (none, s) ∧
    conversationGetRoute uid cid s = .notFoundR "Conversation not found" ∧
    (t ≠ "" → conversationRenameRoute uid cid (some t) s =
      (.notFoundR "Conversation not found", s)) ∧
    conversationDeleteRoute uid cid s = (.notFoundR "Conversation not found", s) := by
  have hpred : ∀ c ∈ s.convs, ¬((c.id == cid && c.user_id == uid) = true) := by
    intro c hc
    simp only [Bool.and_eq_true, beq_iff_eq, not_and]
    exact h c hc
  have hgid : getConversationById cid uid s = none := by
    unfold getConversationById
    exact List.find?_eq_none.mpr hpred
  have hmap : s.convs.map (fun c =>
      if c.id == cid && c.user_id == uid then
        { c with title := t, updated_at := s.now } else c) = s.convs := by
    rw [List.map_congr_left (g := id) ?_, List.map_id]
    intro c hc
    simp only [id]
    rw [if_neg (hpred c hc)]
  have hupd : updateConversationTitle cid uid t s = (none, s) := by
    simp only [updateConversationTitle, hmap]
    simp [hgid]
  have hdel : deleteConversation cid uid s = (false, s) := by
    unfold deleteConversation
    rw [if_neg]
    simp only [Bool.not_eq_true]
    exact List.any_eq_false.mpr hpred
  have hadd : addMessage cid uid r ct s = (none, s) := by
    unfold addMessage
    rw [hgid]
  have hgwm : getConversationWithMessages cid uid s = none := by
    unfold getConversationWithMessages
    rw [hgid]
  refine ⟨hgid, hgwm, hupd, hdel, hadd, ?_, ?_, ?_⟩
  · unfold conversationGetRoute
    rw [hgwm]
  · intro ht
    simp only [conversationRenameRoute]
    rw [if_neg ht, hupd]
  · unfold conversationDeleteRoute
    rw [hdel]

/-- C7 witness: user 2 probing user 1's conversation. -/
theorem C7_ownership_scope_witness :
    getConversationById 1 2 storeWithConv = none ∧
    conversationRenameRoute 2 1 (some "x") storeWithConv =
      (.notFoundR "Conversation not found", storeWithConv) ∧
    conversationDeleteRoute 2 1 storeWithConv =
      (.notFoundR "Conversation not found", storeWithConv) :=
  have h := C7_ownership_scope storeWithConv 2 1 "x" "user" "hi" (by decide)
  ⟨h.1, h.2.2.2.2.2.2.1 (by decide), h.2.2.2.2.2.2.2⟩

/-- Any event list produced by the stream phase is the relayed token
events followed by at most one terminal event. -/
theorem streamPhase_events_shape (u a : Option Nat) (gw : GatewayStream)
    (f : FaultSpec) (s : Store) (tr : List Action) (evs : List SseEvent)
    (ended : Bool)
    (h : (streamPhase u a gw f s tr).response = .stream evs ended) :
    ∃ t, evs = gw.tokens.map SseEvent.text ++ t ∧
      (t = [] ∨ (∃ m c, t = [SseEvent.done m c]) ∨ ∃ e, t = [SseEvent.error e]) := by
  obtain ⟨tks, term⟩ := gw
  cases term with
  | failedEv e =>
      simp only [streamPhase] at h
      injection h with h1 h2
      exact ⟨[SseEvent.error e], h1.symm, Or.inr (Or.inr ⟨e, rfl⟩)⟩
  | completedEv msg =>
      cases u with
      | none =>
          simp only [streamPhase] at h
          injection h with h1 h2
          exact ⟨[SseEvent.done msg a], h1.symm, Or.inr (Or.inl ⟨msg, a, rfl⟩)⟩
      | some uid =>
          cases a with
          | none =>
              simp only [streamPhase] at h
              injection h with h1 h2
              exact ⟨[SseEvent.done msg none], h1.symm, Or.inr (Or.inl ⟨msg, none, rfl⟩)⟩
          | some acid =>
              simp only [streamPhase] at h
              by_cases hif : (f.assistantWriteThrows &&
                  (getConversationById acid uid s).isSome) = true
              · rw [if_pos hif] at h
                injection h with h1 h2
                exact ⟨[], by simpa using h1.symm, Or.inl rfl⟩
              · rw [if_neg hif] at h
                injection h with h1 h2
                exact ⟨[SseEvent.done msg (some acid)], h1.symm,
                  Or.inr (Or.inl ⟨msg, some acid, rfl⟩)⟩

/--
C8: the claim asserts the token events are pushed with tag "token". On
the code this is false: the handler writes payloads tagged "text"
(`JSON.stringify({type: 'text', content: text})`), which is also what
the frontend parses.
-/
theorem C8_counterexample :
    (apiChat emptyStore ⟨none, .arr [msgHi], none⟩ gwOk noFaults).response =
      .stream [SseEvent.text "ok", SseEvent.done ⟨"ok"⟩ none] true ∧
    serializeEvent (SseEvent.text "ok") =
      "data: \x7b\"type\":\"text\",\"content\":\"ok\"\x7d\n\n" ∧
    serializeEvent (SseEvent.text "ok") ≠
      "data: \x7b\"type\":\"token\",\"content\":\"ok\"\x7d\n\n" := by
  decide

/--
C8 (amended): each event pushed to the chat client is exactly one of the
tagged payload shapes tagged "text" (with content), "done" (with message
and optional conversationId), or "error" (with error), each serialized as
one line prefixed "data: " followed by a blank line; and any stream
response consists of the relayed token events followed by at most one
terminal event.
-/
theorem C8_amended_event_shapes (s : Store) (req : ChatRequest) (gw : GatewayStream)
    (f : FaultSpec) (evs : List SseEvent) (ended : Bool)
    (hresp : (apiChat s req gw f).response = .stream evs ended) :
    (∃ t, evs = gw.tokens.map SseEvent.text ++ t ∧
      (t = [] ∨ (∃ m c, t = [SseEvent.done m c]) ∨ ∃ e, t = [SseEvent.error e])) ∧
    ∀ e ∈ evs, ∃ body, serializeEvent e = "data: " ++ body ++ "\n\n" := by
  refine ⟨?_, fun e _ => ⟨eventBody e, rfl⟩⟩
  obtain ⟨ru, rmf, rcid⟩ := req
  cases rmf with
  | missing => cases hresp
  | nonArray => cases hresp
  | arr ms =>
      cases ru with
      | none =>
          refine streamPhase_events_shape none rcid gw f s [] evs ended ?_
          cases hl : (ms.filter (fun m => m.role == "user")).getLast? <;>
            simpa only [apiChat, hl] using hresp
      | some uid =>
          cases hl : (ms.filter (fun m => m.role == "user")).getLast? with
          | none =>
              refine streamPhase_events_shape (some uid) rcid gw f s [] evs ended ?_
              simpa only [apiChat, hl] using hresp
          | some lum =>
              cases rcid with
              | some cid =>
                  simp only [apiChat, hl, persistUserAndStream] at hresp
                  by_cases hif : (f.userWriteThrows &&
                      (getConversationById cid uid s).isSome) = true
                  · rw [if_pos hif] at hresp
                    cases hresp
                  · rw [if_neg hif] at hresp
                    exact streamPhase_events_shape _ _ gw f _ _ evs ended hresp
              | none =>
                  simp only [apiChat, hl] at hresp
                  rcases hcc : createConversation uid "New conversation" s with
                    ⟨conv?, s₁⟩
                  rw [hcc] at hresp
                  cases conv? with
                  | none => cases hresp
                  | some conv =>
                      simp only [persistUserAndStream] at hresp
                      by_cases hif : (f.userWriteThrows &&
                          (getConversationById conv.id uid
                            (autoGenerateTitle conv.id uid lum.content s₁).2).isSome) = true
                      · rw [if_pos hif] at hresp
                        cases hresp
                      · rw [if_neg hif] at hresp
                        exact streamPhase_events_shape _ _ gw f _ _ evs ended hresp

/-- C8 (amended) witness on a concrete completed stream. -/
theorem C8_amended_event_shapes_witness :
    (∃ t, [SseEvent.text "ok", SseEvent.done ⟨"ok"⟩ none] =
        gwOk.tokens.map SseEvent.text ++ t ∧
      (t = [] ∨ (∃ m c, t = [SseEvent.done m c]) ∨ ∃ e, t = [SseEvent.error e])) ∧
    ∀ e ∈ [SseEvent.text "ok", SseEvent.done ⟨"ok"⟩ none],
      ∃ body, serializeEvent e = "data: " ++ body ++ "\n\n" :=
  C8_amended_event_shapes emptyStore ⟨none, .arr [msgHi], none⟩ gwOk noFaults
    [SseEvent.text "ok", SseEvent.done ⟨"ok"⟩ none] true (by decide)

/--
C9: for every anonymous chat request — no principal resolved — no
conversation row and no message row is created, whatever the supplied
conversation id, the gateway outcome, or injected store faults; and the
optional-mode identity resolver never fails the request: it always
proceeds, with or without a principal, for any header, verifier and user
lookup.
-/
theorem C9_anonymous_no_rows :
    (∀ (s : Store) (mf : MessagesField) (cid? : Option Nat) (gw : GatewayStream)
      (f : FaultSpec), (apiChat s ⟨none, mf, cid?⟩ gw f).store = s) ∧
    (∀ (α : Type) (hdr : Option String) (verify : String → Option TokenPayload)
      (lookup : Nat → Option α),
      ∃ u?, optionalAuth hdr verify lookup = AuthResult.proceed u?) := by
  constructor
  · intro s mf cid? gw f
    obtain ⟨tks, term⟩ := gw
    cases mf with
    | missing => rfl
    | nonArray => rfl
    | arr ms =>
        cases term with
        | failedEv e => rfl
        | completedEv msg => rfl
  · intro α hdr verify lookup
    unfold optionalAuth
    cases hb : bearerToken hdr with
    | none => exact ⟨none, rfl⟩
    | some tok =>
        cases hv : verify tok with
        | none =>
            refine ⟨none, ?_⟩
            simp [hv]
        | some d =>
            refine ⟨lookup d.userId, ?_⟩
            simp [hv]

/--
C10: no authentication endpoint response ever contains the stored
password hash: the login handler strips the `password_hash` key before
responding, and the registration, token-refresh and current-user
responses are built from the `getUserById` projection, which never
selects the `password_hash` column — formally, the key `password_hash`
occurs nowhere in any response body of the four handlers.
-/
theorem C10_no_password_hash_in_responses :
    (∀ (e p : Option String) (g : String → Option UserRow)
      (cmp : String → String → Bool) (ga gr : UserRow → String),
      "password_hash" ∉ bodyKeys (loginHandler e p g cmp ga gr).2) ∧
    (∀ (e p d : Option String) (ex : String → Bool) (hp : String → String)
      (cu : String → String → String → Option UserRow) (ga gr : UserRow → String),
      "password_hash" ∉ bodyKeys (registerHandler e p d ex hp cu ga gr).2) ∧
    (∀ (rt : Option String) (v : String → Option TokenPayload)
      (lk : Nat → Option UserRow) (ga : UserRow → String),
      "password_hash" ∉ bodyKeys (refreshHandler rt v lk ga).2) ∧
    (∀ (hdr : Option String) (v : String → Option TokenPayload)
      (lk : Nat → Option UserRow),
      "password_hash" ∉ bodyKeys (meHandler hdr v lk).2) := by
  have herr : ("password_hash" : String) ∉ (["error"] : List String) := by decide
  refine ⟨?_, ?_, ?_, ?_⟩
  · intro e p g cmp ga gr
    unfold loginHandler
    cases he : jsTruthy e with
    | none => exact herr
    | some email =>
        cases hp : jsTruthy p with
        | none => exact herr
        | some pw =>
            dsimp only
            cases hg : g email with
            | none => exact herr
            | some user =>
                dsimp only
                cases hph : jsTruthy user.password_hash with
                | none => exact herr
                | some stored =>
                    dsimp only
                    by_cases hcmp : cmp pw stored = true
                    · rw [if_pos hcmp]
                      show ("password_hash" : String) ∉
                        ["user", "id", "email", "display_name", "avatar_url",
                         "auth_provider", "oauth_id", "preferences", "created_at",
                         "accessToken", "refreshToken"]
                      decide
                    · rw [if_neg hcmp]
                      exact herr
  · intro e p d ex hp cu ga gr
    unfold registerHandler
    cases he : jsTruthy e with
    | none => exact herr
    | some email =>
        cases hpw : jsTruthy p with
        | none => exact herr
        | some pw =>
            dsimp only
            by_cases hlen : pw.length < 8
            · rw [if_pos hlen]
              exact herr
            · rw [if_neg hlen]
              by_cases hex : ex email = true
              · rw [if_pos hex]
                exact herr
              · rw [if_neg hex]
                cases hcu : cu email (hp pw)
                    ((jsTruthy d).getD ((email.splitOn "@").headD email)) with
                | none => exact herr
                | some user =>
                    show ("password_hash" : String) ∉
                      ["user", "id", "email", "display_name", "avatar_url",
                       "auth_provider", "preferences", "created_at",
                       "accessToken", "refreshToken"]
                    decide
  · intro rt v lk ga
    unfold refreshHandler
    cases hr : jsTruthy rt with
    | none => exact herr
    | some tok =>
        dsimp only
        cases hv : v tok with
        | none => exact herr
        | some dec =>
            dsimp only
            by_cases ht : dec.type ≠ "refresh"
            · rw [if_pos ht]
              exact herr
            · rw [if_neg ht]
              cases hlk : lk dec.userId with
              | none => exact herr
              | some user =>
                  show ("password_hash" : String) ∉ ["accessToken"]
                  decide
  · intro hdr v lk
    unfold meHandler authenticateToken
    cases hb : bearerToken hdr with
    | none => exact herr
    | some tok =>
        dsimp only
        cases hv : v tok with
        | none => exact herr
        | some dec =>
            dsimp only
            cases hlk : lk dec.userId with
            | none =>
                simp only [hlk, Option.map_none']
                exact herr
            | some user =>
                simp only [hlk, Option.map_some']
                show ("password_hash" : String) ∉
                  ["user", "id", "email", "display_name", "avatar_url",
                   "auth_provider", "preferences", "created_at"]
                decide

end Godrick
